import Mathlib

/-!
Verification development for the Bella Roma restaurant reservation bot
(`src/booking_engine.py`).  The booking engine is shallowly embedded:
the availability store (a JSON object of date to time to count) becomes an
association list preserving iteration order, the regex-based slot extractor
becomes explicit left-to-right scanners, and the mutating reservation
committer becomes a function returning the new store.  Operations that can
raise in Python (dictionary indexing after the availability check) return
`Option`, so totality of the handler is a provable statement rather than an
assumption.
-/

namespace Booking

/-- A schedule for one date: association list from time string (HH:MM) to the
remaining table count, in source-file iteration order.  Counts are integers
because nothing in the loader (`BookingEngine.__init__`) forces them to be
non-negative. -/
abbrev DaySchedule := List (String × Int)

/-- The availability store: association list from date string (YYYY-MM-DD) to
its schedule, in source-file iteration order.  Embeds `self.availability`. -/
abbrev Store := List (String × DaySchedule)

/-- First-match association lookup, the analogue of Python dict indexing and
the `key in dict` test. -/
def lookupStr {α : Type} (k : String) : List (String × α) → Option α
  | [] => none
  | (k2, v) :: rest => if k2 = k then some v else lookupStr k rest

/-- Slot access `store[date][time]`, `none` when either key is missing
(a Python `KeyError`). -/
def getSlot (st : Store) (date time : String) : Option Int :=
  match lookupStr date st with
  | none => none
  | some sched => lookupStr time sched

/-- The reason strings returned by `check_availability`, as an enumeration. -/
inductive Reason where
  | ok
  | fully_booked
  | date_not_found
  | time_not_found
deriving DecidableEq

/-- The dict returned by `check_availability`: keys `available`, `tables`,
`reason`. -/
structure AvailabilityResult where
  available : Bool
  tables : Int
  reason : Reason
deriving DecidableEq

/-- Embeds `BookingEngine.check_availability` (src/booking_engine.py,
lines 28-51). -/
def check_availability (st : Store) (date time : String) : AvailabilityResult :=
  match lookupStr date st with
  | none => ⟨false, 0, Reason.date_not_found⟩
  | some day_schedule =>
    match lookupStr time day_schedule with
    | none => ⟨false, 0, Reason.time_not_found⟩
    | some tables =>
      ⟨decide (0 < tables), tables, if 0 < tables then Reason.ok else Reason.fully_booked⟩

/-- ASCII digit test, the embedding of the regex class backslash-d on the
ASCII inputs the engine receives (code points 48 to 57). -/
def isDig (c : Char) : Bool := 48 ≤ c.toNat && c.toNat ≤ 57

/-- Value of a digit string, the embedding of Python `int` applied to a
regex group consisting of digits. -/
def digitsToNat (l : List Char) : Nat :=
  l.foldl (fun acc c => 10 * acc + (c.toNat - 48)) 0

/-- Two-digit zero padding, the embedding of the Python format spec 02d. -/
def pad2 (n : Nat) : String :=
  if n < 10 then "0" ++ toString n else toString n

/-- Month component of `strptime` with format string percent-m: two-digit
forms 10 to 12 and 01 to 09, else a single digit 1 to 9, consuming from the
front of the character list. -/
def parseMonth : List Char → Option (Nat × List Char)
  | a :: b :: rest =>
    if a = '1' ∧ '0' ≤ b ∧ b ≤ '2' then some (10 + (b.toNat - 48), rest)
    else if a = '0' ∧ '1' ≤ b ∧ b ≤ '9' then some (b.toNat - 48, rest)
    else if '1' ≤ a ∧ a ≤ '9' then some (a.toNat - 48, b :: rest)
    else none
  | [a] => if '1' ≤ a ∧ a ≤ '9' then some (a.toNat - 48, []) else none
  | [] => none

/-- Day component of `strptime` with format string percent-d: two-digit
forms 30 to 31, 10 to 29 and 01 to 09, else a single digit 1 to 9. -/
def parseDay : List Char → Option (Nat × List Char)
  | a :: b :: rest =>
    if a = '3' ∧ '0' ≤ b ∧ b ≤ '1' then some (30 + (b.toNat - 48), rest)
    else if ('1' ≤ a ∧ a ≤ '2') ∧ isDig b then some (10 * (a.toNat - 48) + (b.toNat - 48), rest)
    else if a = '0' ∧ '1' ≤ b ∧ b ≤ '9' then some (b.toNat - 48, rest)
    else if '1' ≤ a ∧ a ≤ '9' then some (a.toNat - 48, b :: rest)
    else none
  | [a] => if '1' ≤ a ∧ a ≤ '9' then some (a.toNat - 48, []) else none
  | [] => none

/-- Gregorian leap-year rule used by `datetime`. -/
def isLeap (y : Nat) : Bool := y % 4 = 0 && (y % 100 ≠ 0 || y % 400 = 0)

/-- Number of days of month `m` in year `y`, as validated by `datetime`. -/
def daysInMonth (y m : Nat) : Nat :=
  if m = 2 then (if isLeap y then 29 else 28)
  else if m = 4 ∨ m = 6 ∨ m = 9 ∨ m = 11 then 30
  else 31

/-- Embeds `datetime.strptime(date_str, percent-Y dash percent-m dash
percent-d)`: exactly four year digits, a dash, a month, a dash, a day, the
whole string consumed, and the day valid for the month (else `ValueError`).
Years below 1 are rejected by `datetime` as well. -/
def parseYMD (s : String) : Option (Nat × Nat × Nat) :=
  match s.data with
  | y1 :: y2 :: y3 :: y4 :: '-' :: rest =>
    if isDig y1 && isDig y2 && isDig y3 && isDig y4 then
      let y := digitsToNat [y1, y2, y3, y4]
      match parseMonth rest with
      | some (m, '-' :: rest2) =>
        match parseDay rest2 with
        | some (d, []) => if 1 ≤ y ∧ d ≤ daysInMonth y m then some (y, m, d) else none
        | _ => none
      | _ => none
    else none
  | _ => none

/-- Full month name, `strftime` directive percent-B. -/
def monthName : Nat → String
  | 1 => "January"
  | 2 => "February"
  | 3 => "March"
  | 4 => "April"
  | 5 => "May"
  | 6 => "June"
  | 7 => "July"
  | 8 => "August"
  | 9 => "September"
  | 10 => "October"
  | 11 => "November"
  | 12 => "December"
  | _ => ""

/-- Embeds `BookingEngine._format_date` (lines 221-227): parse as
YYYY-MM-DD and render as month name, zero-padded day, year; on a
`ValueError` the raw string is returned unchanged. -/
def format_date (date_str : String) : String :=
  match parseYMD date_str with
  | some (y, m, d) => monthName m ++ " " ++ pad2 d ++ ", " ++ toString y
  | none => date_str

/-- The plural suffix used in the f-strings: "s" exactly when the count is
not 1. -/
def plural (c : Int) : String := if c ≠ 1 then "s" else ""

/-- Total remaining capacity of a schedule, `sum(schedule.values())`. -/
def sumSched (sched : DaySchedule) : Int := (sched.map Prod.snd).sum

/-- One rendered slot entry of `suggest_alternative`. -/
def slot_text (t : String) (c : Int) : String :=
  t ++ " (" ++ toString c ++ " table" ++ plural c ++ " left)"

/-- The list comprehension of lines 119-123: slots with positive count, in
iteration order, rendered. -/
def availableSlots (sched : DaySchedule) : List String :=
  (sched.filter (fun p => 0 < p.2)).map (fun p => slot_text p.1 p.2)

/-- The loop of lines 129-134: all other dates with positive total
capacity, in iteration order, formatted. -/
def otherDates (st : Store) (date : String) : List String :=
  (st.filter (fun q => q.1 ≠ date ∧ 0 < sumSched q.2)).map (fun q => format_date q.1)

/-- The final fallback message of `suggest_alternative` (line 140). -/
def noAvailMsg : String :=
  "😔 Unfortunately, we have no available tables at this time. Please try again later."

/-- Embeds `BookingEngine.suggest_alternative` (lines 106-140). -/
def suggest_alternative (st : Store) (date : String) : String :=
  let same : Option String :=
    match lookupStr date st with
    | some day_schedule =>
      let slots := availableSlots day_schedule
      if slots ≠ [] then
        some ("📋 Available times on " ++ format_date date ++ ": " ++ String.intercalate ", " slots)
      else none
    | none => none
  match same with
  | some msg => msg
  | none =>
    let others := otherDates st date
    if others ≠ [] then
      "📋 No availability on " ++ format_date date ++ ". Try these dates instead: " ++
        String.intercalate ", " others
    else noAvailMsg

/-- Decrement the count of the first entry for `time`; `none` when the key
is absent (a `KeyError` in Python). -/
def decInner (time : String) : DaySchedule → Option DaySchedule
  | [] => none
  | (t2, c) :: rest =>
    if t2 = time then some ((t2, c - 1) :: rest)
    else (decInner time rest).map (fun r => (t2, c) :: r)

/-- The store after the statement on line 94 decrementing
`store[date][time]`; `none` when either key is absent. -/
def decSlot (date time : String) : Store → Option Store
  | [] => none
  | (d2, sched) :: rest =>
    if d2 = date then (decInner time sched).map (fun s => (d2, s) :: rest)
    else (decSlot date time rest).map (fun r => (d2, sched) :: r)

/-- The validation message of line 67. -/
def validationMsg : String := "🚫 Number of guests must be at least 1. Please try again."

/-- The confirmation message of lines 97-104. -/
def successMsg (date time : String) (guests remaining : Int) : String :=
  "✅ Reservation confirmed!\n\n📅 Date: " ++ format_date date ++
    "\n🕐 Time: " ++ time ++
    "\n👥 Guests: " ++ toString guests ++
    "\n\n🍕 We look forward to welcoming you at Bella Roma! (" ++
    toString remaining ++ " table" ++ plural remaining ++ " remaining for this slot)"

/-- Embeds `BookingEngine.book_table` (lines 53-104).  Returns the reply
and the (possibly updated) store; `none` marks a path on which the Python
code would raise, which `book_table_total` below proves unreachable. -/
def book_table (st : Store) (date time : String) (guests : Int) : Option (String × Store) :=
  if guests ≤ 0 then some (validationMsg, st)
  else
    let status := check_availability st date time
    if status.reason = Reason.date_not_found then
      some ("🚫 Sorry, we don\u0027t have availability data for " ++ format_date date ++ ". " ++
        suggest_alternative st date, st)
    else if status.reason = Reason.time_not_found then
      some ("🚫 Sorry, we don\u0027t offer reservations at " ++ time ++ " on " ++
        format_date date ++ ". " ++ suggest_alternative st date, st)
    else if status.available = false then
      some ("🚫 Sorry, no tables are available at " ++ time ++ " on " ++ format_date date ++
        ". " ++ suggest_alternative st date, st)
    else
      match decSlot date time st with
      | none => none
      | some st2 =>
        match getSlot st2 date time with
        | none => none
        | some remaining => some (successMsg date time guests remaining, st2)

/-- The default date constant of line 17. -/
def DEFAULT_DATE : String := "2026-02-20"

/-- ASCII lowering, the embedding of `str.lower` on the ASCII messages the
engine receives. -/
def lowerChar (c : Char) : Char :=
  if 65 ≤ c.toNat ∧ c.toNat ≤ 90 then Char.ofNat (c.toNat + 32) else c

/-- Lower an entire message, `message.lower()` (line 154). -/
def toLowerStr (s : String) : String := ⟨s.data.map lowerChar⟩

/-- ASCII whitespace, the embedding of the regex class backslash-s on the
ASCII messages the engine receives. -/
def isWS (c : Char) : Bool :=
  c = ' ' || c = '\t' || c = '\n' || c = '\x0b' || c = '\x0c' || c = '\r'

/-- Generic leftmost regex search: try the single-position matcher at every
position from the left, as `re.search` does. -/
def scanFirst {α : Type} (p : List Char → Option α) : List Char → Option α
  | [] => p []
  | c :: rest =>
    match p (c :: rest) with
    | some a => some a
    | none => scanFirst p rest

/-- Single-position matcher for the date pattern of line 157: four digits,
a dash, two digits, a dash, two digits. -/
def matchDateAt : List Char → Option (List Char)
  | a :: b :: c :: d :: e :: f :: g :: h :: i :: j :: _ =>
    if isDig a && isDig b && isDig c && isDig d && e = '-' &&
        isDig f && isDig g && h = '-' && isDig i && isDig j then
      some [a, b, c, d, e, f, g, h, i, j]
    else none
  | _ => none

/-- Single-position matcher for the time pattern of line 161 (one or two
hour digits, a colon, two minute digits); the two-digit hour is tried first
because the repetition is greedy. -/
def matchTimeAt : List Char → Option (List Char)
  | a :: b :: c :: d :: e :: _ =>
    if isDig a && isDig b && c = ':' && isDig d && isDig e then some [a, b, c, d, e]
    else if isDig a && b = ':' && isDig c && isDig d then some [a, b, c, d]
    else none
  | [a, b, c, d] =>
    if isDig a && b = ':' && isDig c && isDig d then some [a, b, c, d]
    else none
  | _ => none

/-- Split a character list at every colon, the embedding of the Python
`split` method with a colon separator. -/
def splitColon : List Char → List (List Char)
  | [] => [[]]
  | c :: rest =>
    if c = ':' then [] :: splitColon rest
    else
      match splitColon rest with
      | h :: t => (c :: h) :: t
      | [] => [[c]]

/-- Normalization of a raw time match (lines 166-167): split on the colon,
convert the hour with `int`, format it zero-padded to two digits, and keep
the minute part verbatim.  Only applied to outputs of `matchTimeAt`, which
always contain exactly one colon. -/
def normalizeTime (raw : List Char) : String :=
  match splitColon raw with
  | p0 :: p1 :: _ => pad2 (digitsToNat p0) ++ ":" ++ ⟨p1⟩
  | _ => ""

/-- Single-position matcher for the guest pattern of line 170: one or more
digits, optional whitespace, then one of the guest words. -/
def matchGuestAt (l : List Char) : Option Nat :=
  let ds := l.takeWhile isDig
  if ds = [] then none
  else
    let rest := (l.drop ds.length).dropWhile isWS
    if ["guest", "people", "person", "pax", "seat"].any
        (fun w => w.data.isPrefixOf rest) then
      some (digitsToNat ds)
    else none

/-- Digits after mandatory whitespace, the tail of the pattern of
line 175. -/
def wsDigits (rest : List Char) : Option Nat :=
  let ws := rest.takeWhile isWS
  if ws = [] then none
  else
    let ds := (rest.drop ws.length).takeWhile isDig
    if ds = [] then none else some (digitsToNat ds)

/-- Single-position matcher for the fallback guest pattern of line 175:
the word for or the word of, whitespace, then one or more digits. -/
def matchForOfAt (l : List Char) : Option Nat :=
  if "for".data.isPrefixOf l then wsDigits (l.drop 3)
  else if "of".data.isPrefixOf l then wsDigits (l.drop 2)
  else none

/-- Date extraction of lines 157-158: first date match, else the default
date. -/
def extractDate (message : String) : String :=
  match scanFirst matchDateAt message.data with
  | some raw => ⟨raw⟩
  | none => DEFAULT_DATE

/-- Time extraction of lines 161-167: first time match, normalized. -/
def extractTime (message : String) : Option String :=
  (scanFirst matchTimeAt message.data).map normalizeTime

/-- Guest extraction of lines 170-177: guest-word pattern on the lowered
message, and when that leaves zero, the for-of fallback pattern. -/
def extractGuests (message : String) : Int :=
  let lower := (toLowerStr message).data
  let g : Nat :=
    match scanFirst matchGuestAt lower with
    | some n => n
    | none => 0
  if g = 0 then
    match scanFirst matchForOfAt lower with
    | some n => Int.ofNat n
    | none => Int.ofNat g
  else Int.ofNat g

/-- Substring containment on character lists, the Python `in` operator for
strings. -/
def containsList (needle : List Char) : List Char → Bool
  | [] => needle.isEmpty
  | c :: rest => needle.isPrefixOf (c :: rest) || containsList needle rest

/-- Substring containment on strings. -/
def containsStr (hay needle : String) : Bool := containsList needle.data hay.data

/-- The keyword test of line 180 for the check-availability intent. -/
def checkIntentKw (lower : String) : Bool :=
  ["check", "available", "availability", "open"].any (fun w => containsStr lower w)

/-- The keyword test of line 195 for the make-reservation intent. -/
def bookIntentKw (lower : String) : Bool :=
  ["book", "reserve", "reservation"].any (fun w => containsStr lower w)

/-- The time-missing prompt of lines 197-203. -/
def timePrompt : String :=
  "🍕 I\u0027d love to help you book a table! Please provide the time (e.g., 19:00), number of guests (e.g., 4 guests), and optionally a date (e.g., 2026-02-20). Default date is February 20, 2026."

/-- The guest-count prompt of lines 205-209, echoing the extracted time and
date. -/
def guestPrompt (time date : String) : String :=
  "🍕 Great choice! " ++ time ++ " on " ++ format_date date ++
    " — how many guests will be joining? (e.g., \u0027book for 4 guests at " ++ time ++ "\u0027)"

/-- The fallback help message of lines 213-219, enumerating the store dates
in iteration order. -/
def helpMsg (st : Store) : String :=
  "🍕 I can help you with reservations! Try:\n\n• \"Book a table for 4 at 19:00\"\n• \"Check availability at 20:00\"\n• \"Reserve for 2 guests at 18:00 on 2026-02-21\"\n\nOur available dates: " ++
    String.intercalate ", " (st.map (fun q => format_date q.1))

/-- The check-availability branch of lines 180-193; it never mutates the
store, so it returns only the reply. -/
def checkBranch (st : Store) (date : String) (time_str : Option String) : String :=
  match time_str with
  | some t =>
    let status := check_availability st date t
    if status.available then
      "✅ Yes! We have " ++ toString status.tables ++ " table" ++ plural status.tables ++
        " available at " ++ t ++ " on " ++ format_date date ++ ". Would you like to book one?"
    else
      "🚫 No tables available at " ++ t ++ " on " ++ format_date date ++ ". " ++
        suggest_alternative st date
  | none => suggest_alternative st date

/-- Embeds `BookingEngine.handle_message` (lines 142-219).  Returns the
reply and the (possibly updated) store; `none` marks a path on which the
Python code would raise, proved unreachable below. -/
def handle_message (st : Store) (message : String) : Option (String × Store) :=
  let lower := toLowerStr message
  let date := extractDate message
  let time_str := extractTime message
  let guests := extractGuests message
  if checkIntentKw lower then some (checkBranch st date time_str, st)
  else if bookIntentKw lower then
    match time_str with
    | none => some (timePrompt, st)
    | some t =>
      if guests = 0 then some (guestPrompt t date, st)
      else book_table st date t guests
  else some (helpMsg st, st)

/-- The operations a caller can perform on a live engine. -/
inductive Op where
  | checkOp (date time : String)
  | bookOp (date time : String) (guests : Int)
  | suggestOp (date : String)
  | msgOp (message : String)

/-- Store effect of one operation: `check_availability` and
`suggest_alternative` are read-only, `book_table` and `handle_message`
may commit a reservation. -/
def step (st : Store) : Op → Store
  | Op.checkOp _ _ => st
  | Op.bookOp d t g =>
    match book_table st d t g with
    | some (_, st2) => st2
    | none => st
  | Op.suggestOp _ => st
  | Op.msgOp m =>
    match handle_message st m with
    | some (_, st2) => st2
    | none => st

/-- Store after a finite sequence of operations. -/
def runOps (st : Store) (ops : List Op) : Store := ops.foldl step st

/-- Every slot count in the store is non-negative. -/
def NonnegStore (st : Store) : Prop :=
  ∀ d sched, (d, sched) ∈ st → ∀ t c, (t, c) ∈ sched → 0 ≤ c

/-- Parsed JSON values, the possible results of `json.load`. -/
inductive JsonVal where
  | null
  | bool (b : Bool)
  | num (n : Int)
  | str (s : String)
  | arr (xs : List JsonVal)
  | obj (fields : List (String × JsonVal))

/-- Embeds `BookingEngine.__init__` (lines 23-26): `json.load` on the
availability file.  A source that cannot be opened or parsed raises
(modelled as the `none` input); any successfully parsed JSON value is
stored wholesale, with no shape validation anywhere in the constructor. -/
def load (source : Option JsonVal) : Except String JsonVal :=
  match source with
  | none => Except.error "FileError: availability source missing or unreadable"
  | some v => Except.ok v

/-- A JSON value that is a non-negative integer table count. -/
def isCountVal : JsonVal → Bool
  | JsonVal.num n => decide (0 ≤ n)
  | _ => false

/-- A JSON value that is a mapping from time strings to counts. -/
def isDayVal : JsonVal → Bool
  | JsonVal.obj slots => slots.all (fun q => isCountVal q.2)
  | _ => false

/-- The well-formedness predicate of the specification: a two-level mapping
from strings to strings to non-negative integers. -/
def wellFormedStore : JsonVal → Bool
  | JsonVal.obj days => days.all (fun q => isDayVal q.2)
  | _ => false

/-- Executable form of `NonnegStore`. -/
def nonnegB (st : Store) : Bool :=
  st.all (fun q => q.2.all (fun p => 0 ≤ p.2))

/-- A readable JSON source whose inner value is a negative integer: not a
two-level mapping of strings to non-negative integers. -/
def badAvailabilityJson : JsonVal :=
  JsonVal.obj [("2026-02-20", JsonVal.obj [("19:00", JsonVal.num (-3))])]

/-- The store of the worked example in the specification, used as the
concrete instance for witnesses. -/
def demoStore : Store :=
  [("2026-02-20", [("18:00", 5), ("19:00", 0), ("20:00", 3)]),
   ("2026-02-21", [("19:00", 2)])]

/-! ### Helper lemmas -/

theorem nonnegB_iff (st : Store) : nonnegB st = true ↔ NonnegStore st := by
  simp only [nonnegB, NonnegStore, List.all_eq_true, decide_eq_true_eq]
  constructor
  · intro h d sched hmem t c hmem2
    exact h (d, sched) hmem (t, c) hmem2
  · intro h q hmem p hmem2
    exact h q.1 q.2 hmem p.1 p.2 hmem2

theorem check_of_date_none {st : Store} {date time : String}
    (h : lookupStr date st = none) :
    check_availability st date time = ⟨false, 0, Reason.date_not_found⟩ := by
  simp [check_availability, h]

theorem check_of_time_none {st : Store} {date time : String} {sched : DaySchedule}
    (h : lookupStr date st = some sched) (h2 : lookupStr time sched = none) :
    check_availability st date time = ⟨false, 0, Reason.time_not_found⟩ := by
  simp [check_availability, h, h2]

theorem check_of_slot {st : Store} {date time : String} {sched : DaySchedule} {c : Int}
    (h : lookupStr date st = some sched) (h2 : lookupStr time sched = some c) :
    check_availability st date time =
      ⟨decide (0 < c), c, if 0 < c then Reason.ok else Reason.fully_booked⟩ := by
  simp [check_availability, h, h2]

/-- C1: `check_availability` returns reason `date_not_found` with
`available = false` and `tables = 0` when the date is not a key of the
store; otherwise reason `time_not_found` with `available = false` and
`tables = 0` when the time is not a key under that date; otherwise the
stored count with `available` exactly when it is positive and reason `ok`
or `fully_booked` accordingly.  It never modifies the store, so a second
call with no intervening booking returns the identical result. -/
theorem check_availability_spec (st : Store) (date time : String) :
    (lookupStr date st = none →
      check_availability st date time = ⟨false, 0, Reason.date_not_found⟩) ∧
    (∀ sched, lookupStr date st = some sched → lookupStr time sched = none →
      check_availability st date time = ⟨false, 0, Reason.time_not_found⟩) ∧
    (∀ sched c, lookupStr date st = some sched → lookupStr time sched = some c →
      (check_availability st date time).tables = c ∧
      (check_availability st date time).available = decide (0 < c) ∧
      (check_availability st date time).reason =
        (if 0 < c then Reason.ok else Reason.fully_booked)) ∧
    step st (Op.checkOp date time) = st ∧
    check_availability (step st (Op.checkOp date time)) date time =
      check_availability st date time := by
  refine ⟨fun h => check_of_date_none h,
    fun sched h h2 => check_of_time_none h h2,
    fun sched c h h2 => ?_, rfl, rfl⟩
  rw [check_of_slot h h2]
  exact ⟨rfl, rfl, rfl⟩

/-- Witness for C1 on the specification example store. -/
theorem check_availability_spec_witness :
    check_availability demoStore "2030-01-01" "19:00" = ⟨false, 0, Reason.date_not_found⟩ ∧
    check_availability demoStore "2026-02-20" "21:00" = ⟨false, 0, Reason.time_not_found⟩ ∧
    (check_availability demoStore "2026-02-20" "19:00").reason = Reason.fully_booked ∧
    (check_availability demoStore "2026-02-20" "18:00").available = true := by
  refine ⟨(check_availability_spec demoStore "2030-01-01" "19:00").1 (by decide),
    (check_availability_spec demoStore "2026-02-20" "21:00").2.1
      [("18:00", 5), ("19:00", 0), ("20:00", 3)] (by decide) (by decide), ?_, ?_⟩
  · have h := ((check_availability_spec demoStore "2026-02-20" "19:00").2.2.1
      [("18:00", 5), ("19:00", 0), ("20:00", 3)] 0 (by decide) (by decide)).2.2
    simpa using h
  · have h := ((check_availability_spec demoStore "2026-02-20" "18:00").2.2.1
      [("18:00", 5), ("19:00", 0), ("20:00", 3)] 5 (by decide) (by decide)).2.1
    simpa using h

theorem decInner_spec (time : String) (sched : DaySchedule) (c : Int)
    (h : lookupStr time sched = some c) :
    ∃ sched2, decInner time sched = some sched2 ∧
      lookupStr time sched2 = some (c - 1) ∧
      (∀ t2, t2 ≠ time → lookupStr t2 sched2 = lookupStr t2 sched) ∧
      (∀ p, p ∈ sched2 → p ∈ sched ∨ p = (time, c - 1)) := by
  induction sched with
  | nil => simp [lookupStr] at h
  | cons q rest ih =>
    obtain ⟨t2, c2⟩ := q
    by_cases ht : t2 = time
    · subst ht
      have hc : c2 = c := by simpa [lookupStr] using h
      refine ⟨(t2, c2 - 1) :: rest, by simp [decInner], by simp [lookupStr, hc], ?_, ?_⟩
      · intro t3 hne
        have hne2 : ¬(t2 = t3) := fun heq => hne heq.symm
        simp only [lookupStr]
        rw [if_neg hne2, if_neg hne2]
      · intro p hp
        rcases List.mem_cons.mp hp with h1 | h1
        · exact Or.inr (by simp [h1, hc])
        · exact Or.inl (List.mem_cons_of_mem _ h1)
    · simp only [lookupStr, if_neg ht] at h
      obtain ⟨r2, hr, hl, hf, hm⟩ := ih h
      refine ⟨(t2, c2) :: r2, ?_, ?_, ?_, ?_⟩
      · simp [decInner, if_neg ht, hr]
      · simpa [lookupStr, if_neg ht] using hl
      · intro t3 hne
        simp only [lookupStr]
        by_cases h3 : t2 = t3
        · rw [if_pos h3, if_pos h3]
        · rw [if_neg h3, if_neg h3]
          exact hf t3 hne
      · intro p hp
        rcases List.mem_cons.mp hp with h1 | h1
        · exact Or.inl (by simp [h1])
        · rcases hm p h1 with h2 | h2
          · exact Or.inl (List.mem_cons_of_mem _ h2)
          · exact Or.inr h2

theorem decSlot_spec (date time : String) (st : Store) (c : Int)
    (h : getSlot st date time = some c) :
    ∃ st2, decSlot date time st = some st2 ∧
      getSlot st2 date time = some (c - 1) ∧
      (∀ d2 t2, ¬(d2 = date ∧ t2 = time) → getSlot st2 d2 t2 = getSlot st d2 t2) ∧
      (∀ d2 sched2, (d2, sched2) ∈ st2 →
        (d2, sched2) ∈ st ∨
        ∃ sched, (d2, sched) ∈ st ∧
          ∀ p, p ∈ sched2 → p ∈ sched ∨ p = (time, c - 1)) := by
  induction st with
  | nil => simp [getSlot, lookupStr] at h
  | cons q rest ih =>
    obtain ⟨d2, sched⟩ := q
    by_cases hd : d2 = date
    · subst hd
      simp [getSlot, lookupStr] at h
      obtain ⟨sched2, hr, hl, hf, hm⟩ := decInner_spec time sched c h
      refine ⟨(d2, sched2) :: rest, ?_, ?_, ?_, ?_⟩
      · simp [decSlot, hr]
      · simp [getSlot, lookupStr, hl]
      · intro d3 t3 hne
        simp only [getSlot, lookupStr]
        by_cases h3 : d2 = d3
        · subst h3
          rw [if_pos rfl, if_pos rfl]
          exact hf t3 (fun heq => hne ⟨rfl, heq⟩)
        · rw [if_neg h3, if_neg h3]
      · intro d3 sched3 hmem
        rcases List.mem_cons.mp hmem with h1 | h1
        · simp only [Prod.mk.injEq] at h1
          obtain ⟨rfl, rfl⟩ := h1
          exact Or.inr ⟨sched, by simp, fun p hp => hm p hp⟩
        · exact Or.inl (List.mem_cons_of_mem _ h1)
    · simp only [getSlot, lookupStr, if_neg hd] at h
      have h2 : getSlot rest date time = some c := by simpa [getSlot] using h
      obtain ⟨st2, hr, hl, hf, hm⟩ := ih h2
      refine ⟨(d2, sched) :: st2, ?_, ?_, ?_, ?_⟩
      · simp [decSlot, if_neg hd, hr]
      · simpa [getSlot, lookupStr, if_neg hd] using hl
      · intro d3 t3 hne
        simp only [getSlot, lookupStr]
        by_cases h3 : d2 = d3
        · rw [if_pos h3, if_pos h3]
        · rw [if_neg h3, if_neg h3]
          have := hf d3 t3 hne
          simpa [getSlot] using this
      · intro d3 sched3 hmem
        rcases List.mem_cons.mp hmem with h1 | h1
        · exact Or.inl (by simp [h1])
        · rcases hm d3 sched3 h1 with h3 | h3
          · exact Or.inl (List.mem_cons_of_mem _ h3)
          · obtain ⟨s0, hs0, hp⟩ := h3
            exact Or.inr ⟨s0, List.mem_cons_of_mem _ hs0, hp⟩

theorem book_table_nonpos {st : Store} {d t : String} {g : Int} (hg : g ≤ 0) :
    book_table st d t g = some (validationMsg, st) := by
  simp [book_table, hg]

theorem book_table_date_nf {st : Store} {d t : String} {g : Int}
    (hg : 0 < g) (hx : lookupStr d st = none) :
    book_table st d t g =
      some ("🚫 Sorry, we don\u0027t have availability data for " ++ format_date d ++ ". " ++
        suggest_alternative st d, st) := by
  have hg2 : ¬ g ≤ 0 := by omega
  simp [book_table, hg2, check_of_date_none hx]

theorem book_table_time_nf {st : Store} {d t : String} {g : Int} {sched : DaySchedule}
    (hg : 0 < g) (hx : lookupStr d st = some sched) (hy : lookupStr t sched = none) :
    book_table st d t g =
      some ("🚫 Sorry, we don\u0027t offer reservations at " ++ t ++ " on " ++
        format_date d ++ ". " ++ suggest_alternative st d, st) := by
  have hg2 : ¬ g ≤ 0 := by omega
  simp [book_table, hg2, check_of_time_none hx hy]

theorem book_table_full {st : Store} {d t : String} {g : Int} {sched : DaySchedule} {c : Int}
    (hg : 0 < g) (hx : lookupStr d st = some sched) (hy : lookupStr t sched = some c)
    (h0 : ¬ 0 < c) :
    book_table st d t g =
      some ("🚫 Sorry, no tables are available at " ++ t ++ " on " ++ format_date d ++
        ". " ++ suggest_alternative st d, st) := by
  have hg2 : ¬ g ≤ 0 := by omega
  simp [book_table, hg2, check_of_slot hx hy, h0]

theorem book_table_ok {st : Store} {d t : String} {g : Int} {sched : DaySchedule} {c : Int}
    (hg : 0 < g) (hx : lookupStr d st = some sched) (hy : lookupStr t sched = some c)
    (h0 : 0 < c) :
    ∃ st2, decSlot d t st = some st2 ∧ getSlot st2 d t = some (c - 1) ∧
      book_table st d t g = some (successMsg d t g (c - 1), st2) ∧
      (∀ d2 t2, ¬(d2 = d ∧ t2 = t) → getSlot st2 d2 t2 = getSlot st d2 t2) ∧
      (∀ d2 sched2, (d2, sched2) ∈ st2 →
        (d2, sched2) ∈ st ∨
        ∃ s0, (d2, s0) ∈ st ∧ ∀ p, p ∈ sched2 → p ∈ s0 ∨ p = (t, c - 1)) := by
  have hget : getSlot st d t = some c := by simp [getSlot, hx, hy]
  obtain ⟨st2, hdec, hl, hf, hm⟩ := decSlot_spec d t st c hget
  refine ⟨st2, hdec, hl, ?_, hf, hm⟩
  have hg2 : ¬ g ≤ 0 := by omega
  simp [book_table, hg2, check_of_slot hx hy, h0, hdec, hl]

theorem book_table_total (st : Store) (d t : String) (g : Int) :
    (book_table st d t g).isSome = true := by
  by_cases hg : g ≤ 0
  · simp [book_table_nonpos hg]
  · have hg2 : 0 < g := by omega
    rcases hx : lookupStr d st with _ | sched
    · simp [book_table_date_nf hg2 hx]
    · rcases hy : lookupStr t sched with _ | c
      · simp [book_table_time_nf hg2 hx hy]
      · by_cases h0 : 0 < c
        · obtain ⟨st2, _, _, hb, _, _⟩ := book_table_ok hg2 hx hy h0
          simp [hb]
        · simp [book_table_full hg2 hx hy h0]

/-- C2: when `book_table` succeeds (positive guests, existing slot with a
positive count) the targeted slot is decremented by exactly one, every
other slot of every date is unchanged, and the success message reports the
post-decrement remaining count. -/
theorem book_table_success_spec (st : Store) (d t : String) (g c : Int)
    (hg : 0 < g) (hc : getSlot st d t = some c) (hpos : 0 < c) :
    book_table st d t g = some (successMsg d t g (c - 1), step st (Op.bookOp d t g)) ∧
    getSlot (step st (Op.bookOp d t g)) d t = some (c - 1) ∧
    (∀ d2 t2, ¬(d2 = d ∧ t2 = t) →
      getSlot (step st (Op.bookOp d t g)) d2 t2 = getSlot st d2 t2) ∧
    (toString (c - 1)).data <:+: (successMsg d t g (c - 1)).data := by
  rcases hx : lookupStr d st with _ | sched
  · simp [getSlot, hx] at hc
  · have hy : lookupStr t sched = some c := by simpa [getSlot, hx] using hc
    obtain ⟨st2, hdec, hl, hb, hf, hm⟩ := book_table_ok hg hx hy hpos
    have hstep : step st (Op.bookOp d t g) = st2 := by simp [step, hb]
    rw [hstep]
    refine ⟨hb, hl, hf, ?_⟩
    refine ⟨("✅ Reservation confirmed!\n\n📅 Date: " ++ format_date d ++ "\n🕐 Time: " ++
      t ++ "\n👥 Guests: " ++ toString g ++
      "\n\n🍕 We look forward to welcoming you at Bella Roma! (").data,
      (" table" ++ plural (c - 1) ++ " remaining for this slot)").data, ?_⟩
    simp [successMsg, String.data_append, List.append_assoc]

/-- Witness for C2 on the specification example store. -/
theorem book_table_success_spec_witness :
    getSlot demoStore "2026-02-20" "20:00" = some 3 ∧
    book_table demoStore "2026-02-20" "20:00" 4 =
      some (successMsg "2026-02-20" "20:00" 4 2,
        step demoStore (Op.bookOp "2026-02-20" "20:00" 4)) ∧
    getSlot (step demoStore (Op.bookOp "2026-02-20" "20:00" 4)) "2026-02-20" "20:00" =
      some 2 ∧
    getSlot (step demoStore (Op.bookOp "2026-02-20" "20:00" 4)) "2026-02-20" "18:00" =
      getSlot demoStore "2026-02-20" "18:00" := by
  have h := book_table_success_spec demoStore "2026-02-20" "20:00" 4 3
    (by decide) (by decide) (by decide)
  exact ⟨by decide, by simpa using h.1, by simpa using h.2.1,
    h.2.2.1 "2026-02-20" "18:00" (by simp)⟩

/-- C4: `book_table` mutates the store only when it succeeds: non-positive
guest counts give the validation message with the store unchanged, any
non-ok availability reason gives a failure message embedding the formatted
date and the suggester output with the store unchanged, and no path of the
committer raises. -/
theorem book_table_failure_spec (st : Store) (d t : String) (g : Int) :
    (g ≤ 0 → book_table st d t g = some (validationMsg, st)) ∧
    (0 < g → (check_availability st d t).reason ≠ Reason.ok →
      ∃ m, book_table st d t g = some (m, st) ∧
        (format_date d).data <:+: m.data ∧
        (suggest_alternative st d).data <:+: m.data) ∧
    (book_table st d t g).isSome = true := by
  refine ⟨fun hg => book_table_nonpos hg, ?_, book_table_total st d t g⟩
  intro hg hr
  rcases hx : lookupStr d st with _ | sched
  · refine ⟨_, book_table_date_nf hg hx, ?_, ?_⟩
    · exact ⟨("🚫 Sorry, we don\u0027t have availability data for ").data,
        (". " ++ suggest_alternative st d).data,
        by simp [String.data_append, List.append_assoc]⟩
    · exact ⟨("🚫 Sorry, we don\u0027t have availability data for " ++ format_date d ++
        ". ").data, [], by simp [String.data_append, List.append_assoc]⟩
  · rcases hy : lookupStr t sched with _ | c
    · refine ⟨_, book_table_time_nf hg hx hy, ?_, ?_⟩
      · exact ⟨("🚫 Sorry, we don\u0027t offer reservations at " ++ t ++ " on ").data,
          (". " ++ suggest_alternative st d).data,
          by simp [String.data_append, List.append_assoc]⟩
      · exact ⟨("🚫 Sorry, we don\u0027t offer reservations at " ++ t ++ " on " ++
          format_date d ++ ". ").data, [], by simp [String.data_append, List.append_assoc]⟩
    · have h0 : ¬ 0 < c := by
        intro h0
        apply hr
        rw [check_of_slot hx hy]
        simp [h0]
      refine ⟨_, book_table_full hg hx hy h0, ?_, ?_⟩
      · exact ⟨("🚫 Sorry, no tables are available at " ++ t ++ " on ").data,
          (". " ++ suggest_alternative st d).data,
          by simp [String.data_append, List.append_assoc]⟩
      · exact ⟨("🚫 Sorry, no tables are available at " ++ t ++ " on " ++ format_date d ++
          ". ").data, [], by simp [String.data_append, List.append_assoc]⟩

/-- Witness for C4 on the specification example store. -/
theorem book_table_failure_spec_witness :
    book_table demoStore "2026-02-20" "19:00" 0 = some (validationMsg, demoStore) ∧
    (book_table demoStore "2026-02-20" "19:00" 2).map Prod.snd = some demoStore ∧
    (book_table demoStore "2030-01-01" "19:00" 2).map Prod.snd = some demoStore ∧
    (book_table demoStore "2026-02-20" "19:00" 2).isSome = true := by
  have h1 := (book_table_failure_spec demoStore "2026-02-20" "19:00" 0).1 (by decide)
  obtain ⟨m1, hb1, -, -⟩ :=
    (book_table_failure_spec demoStore "2026-02-20" "19:00" 2).2.1 (by decide) (by decide)
  obtain ⟨m2, hb2, -, -⟩ :=
    (book_table_failure_spec demoStore "2030-01-01" "19:00" 2).2.1 (by decide) (by decide)
  have h4 := (book_table_failure_spec demoStore "2026-02-20" "19:00" 2).2.2
  exact ⟨h1, by simp [hb1], by simp [hb2], h4⟩

/-- C10: the guest count never influences capacity: for any two positive
guest counts, `book_table` makes the same availability decision and the
same store update, failure messages are identical, and the success
messages differ only in the rendered guest count. -/
theorem guests_do_not_affect_capacity (st : Store) (d t : String) (g1 g2 : Int)
    (h1 : 1 ≤ g1) (h2 : 1 ≤ g2) :
    (book_table st d t g1).map Prod.snd = (book_table st d t g2).map Prod.snd ∧
    ((check_availability st d t).reason ≠ Reason.ok →
      book_table st d t g1 = book_table st d t g2) ∧
    ((check_availability st d t).reason = Reason.ok →
      0 < (check_availability st d t).tables ∧
      book_table st d t g1 =
        some (successMsg d t g1 ((check_availability st d t).tables - 1),
          step st (Op.bookOp d t g1)) ∧
      book_table st d t g2 =
        some (successMsg d t g2 ((check_availability st d t).tables - 1),
          step st (Op.bookOp d t g1))) := by
  have hg1 : (0:Int) < g1 := by omega
  have hg2 : (0:Int) < g2 := by omega
  rcases hx : lookupStr d st with _ | sched
  · rw [book_table_date_nf hg1 hx, book_table_date_nf hg2 hx]
    refine ⟨rfl, fun _ => rfl, fun hok => ?_⟩
    rw [check_of_date_none hx] at hok
    simp at hok
  · rcases hy : lookupStr t sched with _ | c
    · rw [book_table_time_nf hg1 hx hy, book_table_time_nf hg2 hx hy]
      refine ⟨rfl, fun _ => rfl, fun hok => ?_⟩
      rw [check_of_time_none hx hy] at hok
      simp at hok
    · by_cases h0 : 0 < c
      · obtain ⟨st2, hdec, hl, hb1, _, _⟩ := book_table_ok hg1 hx hy h0
        obtain ⟨st2b, hdecb, _, hb2, _, _⟩ := book_table_ok hg2 hx hy h0
        rw [hdec] at hdecb
        obtain rfl : st2 = st2b := by simpa using hdecb
        have hstep : step st (Op.bookOp d t g1) = st2 := by simp [step, hb1]
        have htab : (check_availability st d t).tables = c := by
          rw [check_of_slot hx hy]
        refine ⟨by simp [hb1, hb2], fun hne => ?_, fun _ => ?_⟩
        · exfalso
          apply hne
          rw [check_of_slot hx hy]
          simp [h0]
        · rw [htab, hstep]
          exact ⟨h0, hb1, hb2⟩
      · rw [book_table_full hg1 hx hy h0, book_table_full hg2 hx hy h0]
        refine ⟨rfl, fun _ => rfl, fun hok => ?_⟩
        rw [check_of_slot hx hy] at hok
        simp [h0] at hok

/-- Witness for C10 on the specification example store. -/
theorem guests_do_not_affect_capacity_witness :
    (book_table demoStore "2026-02-20" "18:00" 1).map Prod.snd =
      (book_table demoStore "2026-02-20" "18:00" 100).map Prod.snd ∧
    book_table demoStore "2026-02-20" "19:00" 1 =
      book_table demoStore "2026-02-20" "19:00" 100 := by
  have h := guests_do_not_affect_capacity demoStore "2026-02-20" "18:00" 1 100
    (by decide) (by decide)
  have h2 := guests_do_not_affect_capacity demoStore "2026-02-20" "19:00" 1 100
    (by decide) (by decide)
  exact ⟨h.1, h2.2.1 (by decide)⟩

theorem handle_message_shape (st : Store) (msg : String) :
    (∃ r, handle_message st msg = some (r, st)) ∨
    (∃ d2 t2 g2, handle_message st msg = book_table st d2 t2 g2) := by
  by_cases h1 : checkIntentKw (toLowerStr msg)
  · exact Or.inl ⟨checkBranch st (extractDate msg) (extractTime msg),
      by simp [handle_message, h1]⟩
  · by_cases h2 : bookIntentKw (toLowerStr msg)
    · rcases hts : extractTime msg with _ | t
      · exact Or.inl ⟨timePrompt, by simp [handle_message, h1, h2, hts]⟩
      · by_cases hg : extractGuests msg = 0
        · exact Or.inl ⟨guestPrompt t (extractDate msg),
            by simp [handle_message, h1, h2, hts, hg]⟩
        · exact Or.inr ⟨extractDate msg, t, extractGuests msg,
            by simp [handle_message, h1, h2, hts, hg]⟩
    · exact Or.inl ⟨helpMsg st, by simp [handle_message, h1, h2]⟩

/-- C9: the message handler is total: it answers every message over every
store without raising (all the dictionary accesses on its paths are
guarded), and date formatting of an unparseable date string falls back to
the raw string instead of throwing. -/
theorem handle_message_total (st : Store) (msg : String) (s : String) :
    (handle_message st msg).isSome = true ∧
    (parseYMD s = none → format_date s = s) := by
  constructor
  · rcases handle_message_shape st msg with ⟨r, h⟩ | ⟨d2, t2, g2, h⟩
    · simp [h]
    · rw [h]
      exact book_table_total st d2 t2 g2
  · intro h
    simp [format_date, h]

/-- Witness for C9: a message with an unbookable slot and garbage guests,
and an unparseable date string. -/
theorem handle_message_total_witness :
    (handle_message demoStore "book 99:99 for 0 guests on 0000-13-45").isSome = true ∧
    parseYMD "9999-99-99" = none ∧
    format_date "9999-99-99" = "9999-99-99" := by
  refine ⟨(handle_message_total demoStore "book 99:99 for 0 guests on 0000-13-45" "x").1,
    by decide, (handle_message_total demoStore "x" "9999-99-99").2 (by decide)⟩

theorem nonneg_book_table {st st2 : Store} {d t : String} {g : Int} {m : String}
    (h : NonnegStore st) (hb : book_table st d t g = some (m, st2)) :
    NonnegStore st2 := by
  by_cases hg : g ≤ 0
  · rw [book_table_nonpos hg] at hb
    simp only [Option.some.injEq, Prod.mk.injEq] at hb
    obtain ⟨-, rfl⟩ := hb
    exact h
  · have hg2 : 0 < g := by omega
    rcases hx : lookupStr d st with _ | sched
    · rw [book_table_date_nf hg2 hx] at hb
      simp only [Option.some.injEq, Prod.mk.injEq] at hb
      obtain ⟨-, rfl⟩ := hb
      exact h
    · rcases hy : lookupStr t sched with _ | c
      · rw [book_table_time_nf hg2 hx hy] at hb
        simp only [Option.some.injEq, Prod.mk.injEq] at hb
        obtain ⟨-, rfl⟩ := hb
        exact h
      · by_cases h0 : 0 < c
        · obtain ⟨st3, hdec, hl, hbk, hf, hm⟩ := book_table_ok hg2 hx hy h0
          rw [hbk] at hb
          simp only [Option.some.injEq, Prod.mk.injEq] at hb
          obtain ⟨-, rfl⟩ := hb
          intro d3 sched3 hmem t3 c3 hmem2
          rcases hm d3 sched3 hmem with hin | ⟨s0, hs0, hp⟩
          · exact h d3 sched3 hin t3 c3 hmem2
          · rcases hp (t3, c3) hmem2 with hin2 | heq
            · exact h d3 s0 hs0 t3 c3 hin2
            · simp only [Prod.mk.injEq] at heq
              obtain ⟨-, rfl⟩ := heq
              omega
        · rw [book_table_full hg2 hx hy h0] at hb
          simp only [Option.some.injEq, Prod.mk.injEq] at hb
          obtain ⟨-, rfl⟩ := hb
          exact h

theorem nonneg_step (st : Store) (op : Op) (h : NonnegStore st) :
    NonnegStore (step st op) := by
  cases op with
  | checkOp d t => exact h
  | suggestOp d => exact h
  | bookOp d t g =>
    cases hb : book_table st d t g with
    | none => simpa [step, hb] using h
    | some r =>
      obtain ⟨m, st2⟩ := r
      have h2 := nonneg_book_table h hb
      simpa [step, hb] using h2
  | msgOp msg =>
    rcases handle_message_shape st msg with ⟨r, hm⟩ | ⟨d2, t2, g2, hm⟩
    · simpa [step, hm] using h
    · cases hb : book_table st d2 t2 g2 with
      | none => simpa [step, hm, hb] using h
      | some r =>
        obtain ⟨m2, st2⟩ := r
        have h2 := nonneg_book_table h hb
        simpa [step, hm, hb] using h2

theorem nonneg_runOps (ops : List Op) :
    ∀ st, NonnegStore st → NonnegStore (runOps st ops) := by
  induction ops with
  | nil =>
    intro st h
    simpa [runOps] using h
  | cons op rest ih =>
    intro st h
    simpa [runOps] using ih (step st op) (nonneg_step st op h)

/-- C3: starting from a store whose counts are all non-negative, any finite
sequence of engine operations preserves non-negativity of every slot count,
and a booking aimed at a slot whose count is already 0 leaves the store
unchanged. -/
theorem nonneg_invariant (st : Store) (ops : List Op) (h : NonnegStore st) :
    NonnegStore (runOps st ops) ∧
    (∀ d t g, getSlot st d t = some 0 → ∃ m, book_table st d t g = some (m, st)) := by
  refine ⟨nonneg_runOps ops st h, ?_⟩
  intro d t g hz
  by_cases hg : g ≤ 0
  · exact ⟨validationMsg, book_table_nonpos hg⟩
  · have hg2 : 0 < g := by omega
    rcases hx : lookupStr d st with _ | sched
    · simp [getSlot, hx] at hz
    · have hy : lookupStr t sched = some 0 := by simpa [getSlot, hx] using hz
      exact ⟨_, book_table_full hg2 hx hy (by omega)⟩

/-- Witness for C3: a mixed operation sequence on the specification
example store, and a booking against the zero slot. -/
theorem nonneg_invariant_witness :
    NonnegStore (runOps demoStore
      [Op.bookOp "2026-02-20" "20:00" 2, Op.msgOp "book for 2 at 20:00",
       Op.checkOp "2026-02-20" "18:00", Op.suggestOp "2026-02-20",
       Op.bookOp "2026-02-20" "19:00" 5]) ∧
    (book_table demoStore "2026-02-20" "19:00" 3).map Prod.snd = some demoStore := by
  have h := nonneg_invariant demoStore
    [Op.bookOp "2026-02-20" "20:00" 2, Op.msgOp "book for 2 at 20:00",
     Op.checkOp "2026-02-20" "18:00", Op.suggestOp "2026-02-20",
     Op.bookOp "2026-02-20" "19:00" 5]
    ((nonnegB_iff demoStore).mp (by decide))
  obtain ⟨m, hm⟩ := h.2 "2026-02-20" "19:00" 3 (by decide)
  exact ⟨h.1, by simp [hm]⟩

/-- C5 counterexample: the loader is `json.load` alone — a readable source
whose inner value is a negative integer (and likewise a JSON list) is not a
two-level mapping of strings to non-negative integers, yet it loads
successfully instead of failing, so malformed inner values are accepted
silently. -/
theorem load_accepts_malformed :
    wellFormedStore badAvailabilityJson = false ∧
    load (some badAvailabilityJson) = Except.ok badAvailabilityJson ∧
    wellFormedStore (JsonVal.arr []) = false ∧
    load (some (JsonVal.arr [])) = Except.ok (JsonVal.arr []) :=
  ⟨rfl, rfl, rfl, rfl⟩

/-- C5 (amended): loading fails exactly when the source is unreadable or
not parseable as JSON; every successfully parsed JSON value, of whatever
shape, is accepted wholesale as the store with no validation, and the
loaded store is the entire parsed value, so no partial store is ever
produced. -/
theorem load_spec (source : Option JsonVal) :
    (source = none →
      load source = Except.error "FileError: availability source missing or unreadable") ∧
    (∀ v, source = some v → load source = Except.ok v) := by
  constructor
  · rintro rfl
    rfl
  · rintro v rfl
    rfl

/-- Witness for the amended C5. -/
theorem load_spec_witness :
    load none = Except.error "FileError: availability source missing or unreadable" ∧
    load (some badAvailabilityJson) = Except.ok badAvailabilityJson :=
  ⟨(load_spec none).1 rfl, (load_spec (some badAvailabilityJson)).2 badAvailabilityJson rfl⟩

/-- C6: `suggest_alternative` never changes the store; same-date
suggestions are exactly the slots with positive count in store iteration
order, other-date suggestions are exactly the other dates with positive
total capacity in store iteration order, and when nothing qualifies the
fixed no-availability fallback message is returned — so no named slot or
suggested date ever has zero remaining capacity. -/
theorem suggest_alternative_spec (st : Store) (date : String) :
    step st (Op.suggestOp date) = st ∧
    (∀ sched, lookupStr date st = some sched → availableSlots sched ≠ [] →
      suggest_alternative st date =
        "📋 Available times on " ++ format_date date ++ ": " ++
          String.intercalate ", " (availableSlots sched) ∧
      availableSlots sched =
        (sched.filter (fun p => 0 < p.2)).map (fun p => slot_text p.1 p.2) ∧
      (∀ p, p ∈ sched.filter (fun p => 0 < p.2) → 0 < p.2 ∧ p ∈ sched)) ∧
    ((lookupStr date st = none ∨
        ∃ sched, lookupStr date st = some sched ∧ availableSlots sched = []) →
      (otherDates st date ≠ [] →
        suggest_alternative st date =
          "📋 No availability on " ++ format_date date ++ ". Try these dates instead: " ++
            String.intercalate ", " (otherDates st date) ∧
        otherDates st date =
          (st.filter (fun q => q.1 ≠ date ∧ 0 < sumSched q.2)).map
            (fun q => format_date q.1) ∧
        (∀ q, q ∈ st.filter (fun q => q.1 ≠ date ∧ 0 < sumSched q.2) →
          q.1 ≠ date ∧ 0 < sumSched q.2 ∧ q ∈ st)) ∧
      (otherDates st date = [] → suggest_alternative st date = noAvailMsg)) := by
  refine ⟨rfl, ?_, ?_⟩
  · intro sched hs hne
    refine ⟨by simp [suggest_alternative, hs, hne], rfl, ?_⟩
    intro p hp
    have h2 := List.mem_filter.mp hp
    exact ⟨by simpa using h2.2, h2.1⟩
  · intro hcase
    constructor
    · intro hne
      refine ⟨?_, rfl, ?_⟩
      · rcases hcase with hnone | ⟨sched, hs, hempty⟩
        · simp [suggest_alternative, hnone, hne]
        · simp [suggest_alternative, hs, hempty, hne]
      · intro q hq
        have h2 := List.mem_filter.mp hq
        have h3 := h2.2
        simp only [decide_eq_true_eq] at h3
        exact ⟨h3.1, h3.2, h2.1⟩
    · intro hempty2
      rcases hcase with hnone | ⟨sched, hs, hempty⟩
      · simp [suggest_alternative, hnone, hempty2]
      · simp [suggest_alternative, hs, hempty, hempty2]

/-- Witness for C6: the same-date case on the example store and the
fallback case on a store with a single zero slot. -/
theorem suggest_alternative_spec_witness :
    suggest_alternative demoStore "2026-02-20" =
      "📋 Available times on " ++ format_date "2026-02-20" ++ ": " ++
        String.intercalate ", " (availableSlots [("18:00", 5), ("19:00", 0), ("20:00", 3)]) ∧
    suggest_alternative [("2026-02-20", [("19:00", 0)])] "2026-02-20" = noAvailMsg := by
  have h1 := (suggest_alternative_spec demoStore "2026-02-20").2.1
    [("18:00", 5), ("19:00", 0), ("20:00", 3)] (by decide) (by decide)
  have h2 := ((suggest_alternative_spec [("2026-02-20", [("19:00", 0)])] "2026-02-20").2.2
    (Or.inr ⟨[("19:00", 0)], by decide, by decide⟩)).2 (by decide)
  exact ⟨h1.1, h2⟩

theorem guestPrompt_ne_timePrompt (t d : String) : guestPrompt t d ≠ timePrompt := by
  intro h
  have h2 := congrArg (fun s => s.data.take 3) h
  simp only [guestPrompt, timePrompt, String.data_append, List.append_assoc] at h2
  rw [List.take_append_of_le_length (by decide)] at h2
  revert h2
  decide

/-- C7: for a message classified make-reservation, the missing-time check
precedes the missing-guests check: with no time found the reply is the
time prompt (which states the default date), never the guest prompt, even
when a guest count was extracted; only with a time present and zero guests
is the guest prompt returned, echoing the extracted time and formatted
date. -/
theorem reservation_prompt_order (st : Store) (msg : String)
    (hc : checkIntentKw (toLowerStr msg) = false)
    (hb : bookIntentKw (toLowerStr msg) = true) :
    (extractTime msg = none →
      handle_message st msg = some (timePrompt, st) ∧
      ("February 20, 2026").data <:+: timePrompt.data) ∧
    (∀ t, extractTime msg = some t → extractGuests msg = 0 →
      handle_message st msg = some (guestPrompt t (extractDate msg), st) ∧
      t.data <:+: (guestPrompt t (extractDate msg)).data ∧
      (format_date (extractDate msg)).data <:+: (guestPrompt t (extractDate msg)).data) ∧
    (∀ t2 d2, guestPrompt t2 d2 ≠ timePrompt) := by
  refine ⟨?_, ?_, fun t2 d2 => guestPrompt_ne_timePrompt t2 d2⟩
  · intro hts
    refine ⟨by simp [handle_message, hc, hb, hts], ?_⟩
    exact ⟨("🍕 I\u0027d love to help you book a table! Please provide the time (e.g., 19:00), number of guests (e.g., 4 guests), and optionally a date (e.g., 2026-02-20). Default date is ").data,
      ".".data, by set_option maxRecDepth 8192 in decide⟩
  · intro t hts hg
    refine ⟨by simp [handle_message, hc, hb, hts, hg], ?_, ?_⟩
    · exact ⟨("🍕 Great choice! ").data,
        (" on " ++ format_date (extractDate msg) ++
          " — how many guests will be joining? (e.g., \u0027book for 4 guests at " ++ t ++
          "\u0027)").data,
        by simp [guestPrompt, String.data_append, List.append_assoc]⟩
    · exact ⟨("🍕 Great choice! " ++ t ++ " on ").data,
        (" — how many guests will be joining? (e.g., \u0027book for 4 guests at " ++ t ++
          "\u0027)").data,
        by simp [guestPrompt, String.data_append, List.append_assoc]⟩

/-- Witness for C7: the scenario message with guests but no time gets the
time prompt, and a message with a time but no guests gets the guest
prompt. -/
theorem reservation_prompt_order_witness :
    checkIntentKw (toLowerStr "book for 4 guests") = false ∧
    extractTime "book for 4 guests" = none ∧
    extractGuests "book for 4 guests" = 4 ∧
    handle_message demoStore "book for 4 guests" = some (timePrompt, demoStore) ∧
    handle_message demoStore "book at 19:00" =
      some (guestPrompt "19:00" DEFAULT_DATE, demoStore) := by
  have h1 := reservation_prompt_order demoStore "book for 4 guests" (by decide) (by decide)
  have h2 := reservation_prompt_order demoStore "book at 19:00" (by decide) (by decide)
  refine ⟨by decide, by decide, by decide, (h1.1 (by decide)).1, ?_⟩
  have h3 := (h2.2.1 "19:00" (by decide) (by decide)).1
  rw [show extractDate "book at 19:00" = DEFAULT_DATE from by decide] at h3
  exact h3

theorem scanFirst_none_iff {α : Type} (p : List Char → Option α) (l : List Char) :
    scanFirst p l = none ↔ ∀ i, p (l.drop i) = none := by
  induction l with
  | nil =>
    constructor
    · intro h i
      simpa [List.drop_nil] using h
    · intro h
      simpa [scanFirst] using h 0
  | cons c rest ih =>
    constructor
    · intro h i
      unfold scanFirst at h
      rcases hp : p (c :: rest) with _ | a
      · rw [hp] at h
        cases i with
        | zero => simpa using hp
        | succ j =>
          have h2 := (ih.mp h) j
          simpa using h2
      · rw [hp] at h
        simp at h
    · intro h
      unfold scanFirst
      have h0 := h 0
      simp only [List.drop_zero] at h0
      rw [h0]
      exact ih.mpr (fun i => by simpa using h (i + 1))

theorem scanFirst_some {α : Type} (p : List Char → Option α) (l : List Char) (a : α)
    (h : scanFirst p l = some a) :
    ∃ i, p (l.drop i) = some a ∧ ∀ j, j < i → p (l.drop j) = none := by
  induction l with
  | nil =>
    refine ⟨0, by simpa [scanFirst] using h, ?_⟩
    intro j hj
    omega
  | cons c rest ih =>
    unfold scanFirst at h
    rcases hp : p (c :: rest) with _ | b
    · rw [hp] at h
      obtain ⟨i, hi, hj⟩ := ih h
      refine ⟨i + 1, by simpa using hi, ?_⟩
      intro j hj2
      cases j with
      | zero => simpa using hp
      | succ k =>
        have h2 := hj k (by omega)
        simpa using h2
    · rw [hp] at h
      simp only [Option.some.injEq] at h
      subst h
      refine ⟨0, by simpa using hp, ?_⟩
      intro j hj
      omega

theorem matchTimeAt_shape (l raw : List Char) (h : matchTimeAt l = some raw) :
    (∃ a b d e, raw = [a, b, ':', d, e] ∧
      isDig a = true ∧ isDig b = true ∧ isDig d = true ∧ isDig e = true) ∨
    (∃ a d e, raw = [a, ':', d, e] ∧
      isDig a = true ∧ isDig d = true ∧ isDig e = true) := by
  unfold matchTimeAt at h
  split at h
  · split_ifs at h with h1 h2
    · simp only [Bool.and_eq_true, decide_eq_true_eq] at h1
      obtain ⟨⟨⟨⟨ha, hb⟩, hc⟩, hd⟩, he⟩ := h1
      subst hc
      simp only [Option.some.injEq] at h
      subst h
      exact Or.inl ⟨_, _, _, _, rfl, ha, hb, hd, he⟩
    · simp only [Bool.and_eq_true, decide_eq_true_eq] at h2
      obtain ⟨⟨⟨ha, hb⟩, hc⟩, hd⟩ := h2
      subst hb
      simp only [Option.some.injEq] at h
      subst h
      exact Or.inr ⟨_, _, _, rfl, ha, hc, hd⟩
  · split_ifs at h with h1
    simp only [Bool.and_eq_true, decide_eq_true_eq] at h1
    obtain ⟨⟨⟨ha, hb⟩, hc⟩, hd⟩ := h1
    subst hb
    simp only [Option.some.injEq] at h
    subst h
    exact Or.inr ⟨_, _, _, rfl, ha, hc, hd⟩
  · cases h

theorem isDig_props (a : Char) (h : isDig a = true) :
    a.toNat - 48 < 10 ∧ Char.ofNat ((a.toNat - 48) + 48) = a ∧ ¬(a = ':') := by
  simp only [isDig, Bool.and_eq_true, decide_eq_true_eq] at h
  refine ⟨by omega, ?_, ?_⟩
  · have h2 : a.toNat - 48 + 48 = a.toNat := by omega
    rw [h2, Char.ofNat_toNat]
  · intro heq
    subst heq
    revert h
    decide

theorem toString_digit (x : Nat) (h : x < 10) :
    toString x = String.mk [Char.ofNat (x + 48)] := by
  have h2 : ∀ y, y < 10 → toString y = String.mk [Char.ofNat (y + 48)] := by decide
  exact h2 x h

theorem pad2_two_digits (x y : Nat) (hx : x < 10) (hy : y < 10) :
    pad2 (10 * x + y) = String.mk [Char.ofNat (x + 48), Char.ofNat (y + 48)] := by
  have h2 : ∀ a, a < 10 → ∀ b, b < 10 →
      pad2 (10 * a + b) = String.mk [Char.ofNat (a + 48), Char.ofNat (b + 48)] := by decide
  exact h2 x hx y hy

theorem pad2_one_digit (x : Nat) (h : x < 10) :
    pad2 x = String.mk ['0', Char.ofNat (x + 48)] := by
  have h2 : ∀ y, y < 10 → pad2 y = String.mk ['0', Char.ofNat (y + 48)] := by decide
  exact h2 x h

theorem digitsToNat_one (a : Char) : digitsToNat [a] = a.toNat - 48 := by
  simp [digitsToNat]

theorem digitsToNat_two (a b : Char) :
    digitsToNat [a, b] = 10 * (a.toNat - 48) + (b.toNat - 48) := by
  simp [digitsToNat]

theorem normalizeTime_five (a b d e : Char) (ha : isDig a = true) (hb : isDig b = true)
    (hd : isDig d = true) (he : isDig e = true) :
    normalizeTime [a, b, ':', d, e] = String.mk [a, b, ':', d, e] := by
  obtain ⟨ha1, ha2, ha3⟩ := isDig_props a ha
  obtain ⟨hb1, hb2, hb3⟩ := isDig_props b hb
  obtain ⟨hd1, hd2, hd3⟩ := isDig_props d hd
  obtain ⟨he1, he2, he3⟩ := isDig_props e he
  have hsplit : splitColon [a, b, ':', d, e] = [[a, b], [d, e]] := by
    simp [splitColon, ha3, hb3, hd3, he3]
  simp only [normalizeTime, hsplit, digitsToNat_two]
  rw [pad2_two_digits _ _ ha1 hb1, ha2, hb2]
  apply String.ext
  simp [String.data_append]

theorem normalizeTime_four (a d e : Char) (ha : isDig a = true)
    (hd : isDig d = true) (he : isDig e = true) :
    normalizeTime [a, ':', d, e] = String.mk ['0', a, ':', d, e] := by
  obtain ⟨ha1, ha2, ha3⟩ := isDig_props a ha
  obtain ⟨hd1, hd2, hd3⟩ := isDig_props d hd
  obtain ⟨he1, he2, he3⟩ := isDig_props e he
  have hsplit : splitColon [a, ':', d, e] = [[a], [d, e]] := by
    simp [splitColon, ha3, hd3, he3]
  simp only [normalizeTime, hsplit, digitsToNat_one]
  rw [pad2_one_digit _ ha1, ha2]
  apply String.ext
  simp [String.data_append]

/-- C8: slot extraction normalizes times and applies the guest-count
fallback: the extracted time always comes from the leftmost H:MM or HH:MM
match with the hour zero-padded to two digits (a four-character match gains
a leading zero, a five-character match is kept verbatim), and when no
guest-word pattern matches anywhere the guest count is the first integer
after the word for or the word of; in particular "table for 2 at 7:30"
yields time "07:30" and guests 2. -/
theorem extraction_spec (msg : String) :
    (∀ t, extractTime msg = some t →
      ∃ i raw, matchTimeAt (msg.data.drop i) = some raw ∧
        (∀ j, j < i → matchTimeAt (msg.data.drop j) = none) ∧
        t = normalizeTime raw ∧
        ((raw.length = 4 ∧ t = String.mk ('0' :: raw)) ∨
         (raw.length = 5 ∧ t = String.mk raw))) ∧
    ((∀ i, matchGuestAt ((toLowerStr msg).data.drop i) = none) →
      extractGuests msg =
        ((scanFirst matchForOfAt ((toLowerStr msg).data)).map Int.ofNat).getD 0) ∧
    extractTime "table for 2 at 7:30" = some "07:30" ∧
    extractGuests "table for 2 at 7:30" = 2 := by
  refine ⟨?_, ?_, by decide, by decide⟩
  · intro t ht
    simp only [extractTime, Option.map_eq_some'] at ht
    obtain ⟨raw, hscan, hnorm⟩ := ht
    obtain ⟨i, hi, hj⟩ := scanFirst_some _ _ _ hscan
    refine ⟨i, raw, hi, hj, hnorm.symm, ?_⟩
    rcases matchTimeAt_shape _ _ hi with ⟨a, b, d, e, hraw, ha, hb, hd, he⟩ |
      ⟨a, d, e, hraw, ha, hd, he⟩
    · subst hraw
      exact Or.inr ⟨rfl, by rw [← hnorm, normalizeTime_five a b d e ha hb hd he]⟩
    · subst hraw
      exact Or.inl ⟨rfl, by rw [← hnorm, normalizeTime_four a d e ha hd he]⟩
  · intro h
    have hnone : scanFirst matchGuestAt ((toLowerStr msg).data) = none :=
      (scanFirst_none_iff _ _).mpr h
    cases hf : scanFirst matchForOfAt ((toLowerStr msg).data) with
    | none => simp [extractGuests, hnone, hf]
    | some n => simp [extractGuests, hnone, hf]

/-- Witness for C8: the scenario message, plus the fallback applied to a
message with no guest-word match. -/
theorem extraction_spec_witness :
    extractTime "table for 2 at 7:30" = some "07:30" ∧
    extractGuests "table for 2 at 7:30" = 2 ∧
    extractGuests "dinner for 12 please" = 12 := by
  refine ⟨(extraction_spec "x").2.2.1, (extraction_spec "x").2.2.2, ?_⟩
  have hg : scanFirst matchGuestAt ((toLowerStr "dinner for 12 please").data) = none := by
    decide
  have h := (extraction_spec "dinner for 12 please").2.1
    ((scanFirst_none_iff _ _).mp hg)
  rw [h]
  decide

end Booking
